import Mathlib

/-!
Shallow embedding of the grant-proposal classification and evaluation
engine of the polkadot-grant-analyzer repository
(src/data_processor.py and src/ai_evaluator.py), with proofs about it.

Modelling conventions:
* Python `str` is Lean `String` / `List Char`.  The repository's pattern
  vocabulary is ASCII, so `str.lower`/`str.upper` and the
  case-insensitive regex flag are modelled on the ASCII range
  (non-ASCII characters are left unchanged).
* Python `float` results of the extraction and scoring code are modelled
  as `ℚ`; every concrete value appearing in the claims (day counts,
  score thresholds, dollar amounts with two decimals) is exactly
  representable, so no rounding behaviour of IEEE doubles is relied on.
* Python `datetime` values are modelled as `PyDateTime`: a signed count
  of seconds plus an awareness flag.  For an aware datetime the count is
  absolute (UTC epoch) seconds; for a naive one it is the wall-clock
  reading as-if-UTC, which is exactly the convention the source adopts
  when it calls `replace(tzinfo=utc)` on naive values.  Subtracting a
  timezone-aware datetime from a naive one raises `TypeError` in Python;
  the embedding makes the one place where the source performs such a
  subtraction (`determine_category`) return an `Except.error`.
* Date *strings* are abstracted into `DateStr`: one constructor per
  equivalence class of strings under the two parsers that consume them
  (`GrantDataProcessor.parse_date`, built on `datetime.fromisoformat` /
  `strptime`, and `pandas.to_datetime` used in
  `process_all_proposals`).  `isoAware` is an ISO string carrying an
  offset (e.g. a trailing Z), `isoNaive` an ISO string without one,
  `nonIsoPandas` a string `parse_date` rejects but pandas accepts, and
  `garbage` a string neither parser accepts (pandas raises on it).
-/

namespace GrantAnalyzer

/-! ### ASCII case mapping (Python str.lower / str.upper / re.IGNORECASE) -/

def charLower (c : Char) : Char :=
  if 65 ≤ c.toNat ∧ c.toNat ≤ 90 then Char.ofNat (c.toNat + 32) else c

def charUpper (c : Char) : Char :=
  if 97 ≤ c.toNat ∧ c.toNat ≤ 122 then Char.ofNat (c.toNat - 32) else c

def pyLower (l : List Char) : List Char := l.map charLower

def pyUpper (l : List Char) : List Char := l.map charUpper

def pyLowerStr (s : String) : String := ⟨pyLower s.data⟩

def pyUpperStr (s : String) : String := ⟨pyUpper s.data⟩

/-- Python's `needle in haystack` on strings. -/
def strContains (hay needle : List Char) : Bool :=
  match hay with
  | [] => needle.isEmpty
  | _ :: t => needle.isPrefixOf hay || strContains t needle

/-! ### datetime model -/

structure PyDateTime where
  seconds : Int
  aware : Bool
deriving DecidableEq, Repr

inductive DateStr where
  | isoAware (seconds : Int)
  | isoNaive (seconds : Int)
  | nonIsoPandas (seconds : Int)
  | garbage
deriving DecidableEq, Repr

/-- `GrantDataProcessor.parse_date` (src/data_processor.py:14-36).
All parse failures (empty value, missing key, unparsable string) return
`None`; an ISO string with an offset yields an aware datetime, one
without an offset a naive datetime. -/
def parse_date : Option DateStr → Option PyDateTime
  | none => none
  | some (.isoAware s) => some ⟨s, true⟩
  | some (.isoNaive s) => some ⟨s, false⟩
  | some (.nonIsoPandas _) => none
  | some .garbage => none

/-! ### Regex engine

The two extractors in src/data_processor.py use `re.findall` over a
fixed list of patterns built from literals, the classes `\d`, `\s`,
`[:\-]`, `[:\s]`, `[s]?`-style options, `*`/`+` repetition, `{n}`
counted digits (unrolled below) and a single capture group per pattern.
`matchRE` enumerates the matches of such a pattern at the start of the
input in Python's backtracking priority order (greedy first), so its
head is the match Python's engine produces; `pyFindall` is
`re.findall`: scan left to right, take the leftmost match, emit the
capture group (or the whole match for group-free patterns) and continue
after it. -/

abbrev MOut := Option (List Char) × List Char

inductive RE where
  | cls (p : Char → Bool)
  | lit (w : List Char) (ci : Bool)
  | seq (a b : RE)
  | star (a : RE)
  | opt (a : RE)
  | group (a : RE)

/-- One character of a literal, honouring `re.IGNORECASE`. -/
def charMatch (ci : Bool) (a b : Char) : Bool :=
  if ci then charLower a == charLower b else a == b

def litStrip (ci : Bool) : List Char → List Char → Option (List Char)
  | [], s => some s
  | _ :: _, [] => none
  | c :: w, h :: t => if charMatch ci c h then litStrip ci w t else none

/-- Greedy iteration for `star`.  Each iteration must consume at least
one character (Python's engine likewise refuses to loop on an empty
match); the fuel is an upper bound on the number of iterations and is
instantiated with the input length, which the progress guard makes
sufficient. -/
def starIter (ma : List Char → List MOut) : Nat → List Char → List MOut
  | 0, s => [(none, s)]
  | f + 1, s =>
      ((ma s).flatMap fun pr =>
        if pr.2.length < s.length then
          (starIter ma f pr.2).map fun qr => (qr.1 <|> pr.1, qr.2)
        else []) ++ [(none, s)]

def matchRE : RE → List Char → List MOut
  | .cls p, s =>
      match s with
      | [] => []
      | h :: t => if p h then [(none, t)] else []
  | .lit w ci, s =>
      match litStrip ci w s with
      | some r => [(none, r)]
      | none => []
  | .seq a b, s =>
      (matchRE a s).flatMap fun pr =>
        (matchRE b pr.2).map fun qr => (qr.1 <|> pr.1, qr.2)
  | .star a, s => starIter (fun t => matchRE a t) s.length s
  | .opt a, s => matchRE a s ++ [(none, s)]
  | .group a, s =>
      (matchRE a s).map fun pr => (some (s.take (s.length - pr.2.length)), pr.2)

/-- `re.findall` scanning loop; the fuel is instantiated with
`s.length + 1`, enough because every step either consumes the match or
advances one character. -/
def findallAux : Nat → RE → List Char → List (List Char)
  | 0, _, _ => []
  | f + 1, re, s =>
      match (matchRE re s).head? with
      | some pr =>
          let cap := pr.1.getD (s.take (s.length - pr.2.length))
          if pr.2.length < s.length then cap :: findallAux f re pr.2
          else
            match s with
            | [] => [cap]
            | _ :: t => cap :: findallAux f re t
      | none =>
          match s with
          | [] => []
          | _ :: t => findallAux f re t

def pyFindall (re : RE) (s : List Char) : List (List Char) :=
  findallAux (s.length + 1) re s

/-! ### The concrete patterns of src/data_processor.py -/

def wsChar (c : Char) : Bool :=
  c == ' ' || c == '\t' || c == '\n' || c == '\r' || c == '\x0b' || c == '\x0c'

def digitRE : RE := .cls Char.isDigit

def digitsPlus : RE := .seq digitRE (.star digitRE)

def wsStar : RE := .star (.cls wsChar)

def colonDash : RE := .cls (fun c => c == ':' || c == '-')

/-- `r'w[s]?\s*[:\-]\s*(\d+)'` for a literal word `w`. -/
def labelNumPat (w : List Char) : RE :=
  .seq (.lit w false)
    (.seq (.opt (.lit ['s'] false))
      (.seq wsStar (.seq colonDash (.seq wsStar (.group digitsPlus)))))

/-- `r'(\d+)\s*w[s]?'` for a literal word `w`. -/
def numLabelPat (w : List Char) : RE :=
  .seq (.group digitsPlus)
    (.seq wsStar (.seq (.lit w false) (.opt (.lit ['s'] false))))

/-- `milestone_patterns` (src/data_processor.py:44-51), applied to the
lowercased body, in source order. -/
def milestone_patterns : List RE :=
  [ labelNumPat (("milestone").data),
    labelNumPat (("phase").data),
    labelNumPat (("stage").data),
    numLabelPat (("milestone").data),
    numLabelPat (("phase").data),
    numLabelPat (("stage").data) ]

/-- `r'\d+(?:,\d{3})*(?:\.\d{2})?'`, the amount shape shared by all
seven bounty patterns. -/
def commaChunkRE : RE := .seq (.cls (fun c => c == ',')) (.seq digitRE (.seq digitRE digitRE))

def decPartRE : RE := .seq (.cls (fun c => c == '.')) (.seq digitRE digitRE)

def amtRE : RE := .seq digitsPlus (.seq (.star commaChunkRE) (.opt decPartRE))

def colonWsStar : RE := .star (.cls (fun c => c == ':' || wsChar c))

/-- `amount_patterns` (src/data_processor.py:170-178), in source order;
applied with `re.IGNORECASE` to the raw body. -/
def amount_patterns : List RE :=
  [ .seq (.lit (("$").data) false) (.group amtRE),
    .seq (.group amtRE) (.seq wsStar (.lit (("USD").data) true)),
    .seq (.group amtRE) (.seq wsStar (.lit (("DOT").data) true)),
    .seq (.group amtRE) (.seq wsStar (.lit (("USDC").data) true)),
    .seq (.lit (("amount").data) true) (.seq colonWsStar (.group amtRE)),
    .seq (.lit (("budget").data) true) (.seq colonWsStar (.group amtRE)),
    .seq (.lit (("grant").data) true) (.seq colonWsStar (.group amtRE)) ]

/-! ### Numeric parsing of captures -/

def digitsToNat (l : List Char) : Nat := l.foldl (fun a c => a * 10 + (c.toNat - 48)) 0

/-- Python `int()` on a regex capture. -/
def intParse (l : List Char) : Option Nat :=
  if l.isEmpty then none
  else if l.all Char.isDigit then some (digitsToNat l) else none

def spanDigits : List Char → List Char × List Char
  | [] => ([], [])
  | h :: t =>
      if h.isDigit then
        let p := spanDigits t
        (h :: p.1, p.2)
      else ([], h :: t)

/-- Python `float()` restricted to the unsigned `digits[.digits]` forms,
the only ones the bounty captures can take after comma stripping. -/
def pyFloat (l : List Char) : Option ℚ :=
  let p := spanDigits l
  match p.2 with
  | [] => if p.1.isEmpty then none else some (digitsToNat p.1 : ℚ)
  | c :: fp =>
      if c == '.' && fp.all Char.isDigit && !(p.1.isEmpty && fp.isEmpty) then
        some ((digitsToNat p.1 : ℚ) + (digitsToNat fp : ℚ) / (10 ^ fp.length))
      else none

/-- `matches[0].replace(',', '')`. -/
def stripCommas (l : List Char) : List Char := l.filter (fun c => !(c == ','))

/-- Python `max` over a non-empty list (never called on `[]`). -/
def maxOfList : List Nat → Nat
  | [] => 0
  | h :: t => t.foldl Nat.max h

/-! ### GrantDataProcessor.extract_milestones (src/data_processor.py:38-66) -/

/-- The `for pattern in milestone_patterns` loop: the first pattern with
any match wins and contributes the maximum of its own matches; a
`ValueError` from `int()` (impossible for `\d+` captures, kept for
fidelity) falls through to the next pattern. -/
def tryNumPatterns : List RE → List Char → Option Nat
  | [], _ => none
  | p :: ps, s =>
      match pyFindall p s with
      | [] => tryNumPatterns ps s
      | m :: ms =>
          match (m :: ms).mapM intParse with
          | some ns => some (maxOfList ns)
          | none => tryNumPatterns ps s

def extract_milestones (body : String) : Nat :=
  if body = "" then 0
  else
    match tryNumPatterns milestone_patterns (pyLower body.data) with
    | some n => n
    | none =>
        if (pyFindall (.lit (("milestone").data) false) (pyLower body.data)).length > 0 then
          (pyFindall (.lit (("milestone").data) false) (pyLower body.data)).length
        else 0

/-! ### GrantDataProcessor.extract_bounty_amount (src/data_processor.py:164-190) -/

/-- The `for pattern in amount_patterns` loop: first pattern with a
match returns `float` of its first capture (commas stripped); a
`ValueError` falls through to the next pattern. -/
def tryAmountPatterns : List RE → List Char → Option ℚ
  | [], _ => none
  | p :: ps, s =>
      match pyFindall p s with
      | [] => tryAmountPatterns ps s
      | m :: _ =>
          match pyFloat (stripCommas m) with
          | some v => some v
          | none => tryAmountPatterns ps s

def extract_bounty_amount (body : String) : Option ℚ :=
  if body = "" then none else tryAmountPatterns amount_patterns body.data

/-- The first pattern of `ps` (in order) with at least one `findall`
match on `s`; both extraction loops stop at this pattern. -/
def firstMatchingPattern : List RE → List Char → Option RE
  | [], _ => none
  | p :: ps, s => if (pyFindall p s).isEmpty then firstMatchingPattern ps s else some p

/-! ### Raw records

A sparse optional-field record for the dynamic dicts the GitHub client
hands to `GrantDataProcessor`.  `none` stands for "key absent or falsy
value" wherever the source only probes with `.get(...)` and truthiness
checks. -/

structure RawUser where
  login : Option String := none
deriving DecidableEq, Repr

structure RawComment where
  user : Option RawUser := none
  body : Option String := none
deriving DecidableEq, Repr

structure RawReview where
  user : Option RawUser := none
deriving DecidableEq, Repr

structure RawLabel where
  name : Option String := none
deriving DecidableEq, Repr

structure RawProposal where
  id : Option Int := none
  number : Option Int := none
  title : Option String := none
  body : Option String := none
  user : Option RawUser := none
  repository : Option String := none
  repository_info : List (String × String) := []
  state : Option String := none
  merged : Bool := false
  created_at : Option DateStr := none
  updated_at : Option DateStr := none
  closed_at : Option DateStr := none
  merged_at : Option DateStr := none
  labels : List RawLabel := []
  comments : List RawComment := []
  reviews : List RawReview := []
  additions : Option Int := none
  deletions : Option Int := none
  changed_files : Option Int := none
deriving DecidableEq, Repr

/-! ### GrantDataProcessor.extract_curators (src/data_processor.py:68-86) -/

/-- `if user and user.get('login')`: the user dict and the login string
must both be truthy. -/
def truthyLogin : Option RawUser → Option String
  | none => none
  | some u =>
      match u.login with
      | none => none
      | some s => if s = "" then none else some s

/-- `list(set(...))`.  CPython's set iteration order is unspecified; the
model fixes first-insertion order.  Every claim about curators concerns
membership only, which is order-independent. -/
def pySetToList (l : List String) : List String :=
  l.foldl (fun acc x => if acc.contains x then acc else acc ++ [x]) []

def extract_curators (p : RawProposal) : List String :=
  pySetToList
    ((p.comments.filterMap fun c => truthyLogin c.user) ++
     (p.reviews.filterMap fun r => truthyLogin r.user))

/-! ### GrantDataProcessor.determine_category (src/data_processor.py:88-116) -/

/-- Modelled from the spec: `CATEGORIES`, imported by
src/data_processor.py from config.py, which is not part of the sources;
§3 of the spec fixes the category vocabulary as
`APPROVED | REJECTED | PENDING | STALE | UNKNOWN` and §4.2 step 4 scans
labels against exactly this vocabulary. -/
def CATEGORIES : List String := ["APPROVED", "REJECTED", "PENDING", "STALE", "UNKNOWN"]

/-- The label scan of the `state == "OPEN"` branch: first label whose
uppercased name is in the category vocabulary. -/
def firstCategoryLabel (labels : List RawLabel) : Option String :=
  labels.findSome? fun l =>
    let n := pyUpperStr (l.name.getD "")
    if CATEGORIES.contains n then some n else none

/-- The merge / closed / label / unknown cascade reached when the stale
check does not fire (src/data_processor.py:102-116).
`merged_at is not None and pd.notna(merged_at)` is `merged_at.isSome`:
the raw field is a string or `None`, and `pd.notna` holds for every
string. -/
def category_fall_through (p : RawProposal) : Except String String :=
  if p.merged || p.merged_at.isSome then Except.ok ("APPROVED")
  else if pyUpperStr (p.state.getD "") = "CLOSED" then Except.ok ("REJECTED")
  else if pyUpperStr (p.state.getD "") = "OPEN" then
    match firstCategoryLabel p.labels with
    | some lbl => Except.ok lbl
    | none => Except.ok ("PENDING")
  else Except.ok ("UNKNOWN")

/-- `determine_category` (src/data_processor.py:88-116), with
`datetime.now()` passed in as the naive wall-clock reading `now`
(seconds).  The stale check runs first; on an open record with an
*aware* creation timestamp the subtraction `datetime.now() - created_at`
raises `TypeError` in Python, modelled as `Except.error`. -/
def determine_category (now : Int) (p : RawProposal) : Except String String :=
  if pyUpperStr (p.state.getD "") = "OPEN" then
    match parse_date p.created_at with
    | some c =>
        if c.aware then
          Except.error ("TypeError: cannot subtract offset-aware datetime from naive datetime")
        else if Int.fdiv (now - c.seconds) 86400 > 60 then Except.ok ("STALE")
        else category_fall_through p
    | none => category_fall_through p
  else category_fall_through p

/-! ### GrantDataProcessor.calculate_approval_time (src/data_processor.py:118-144) -/

/-- The message of the exception raised by the normalization lines of
`calculate_approval_time`: line 3 of src/data_processor.py imports the
*class* (`from datetime import datetime`), so `datetime.timezone.utc`
at lines 129/131/139/141 is an attribute lookup on that class, which
has no `timezone` attribute. -/
def attributeErrorMsg : String :=
  "AttributeError: the imported datetime class has no attribute timezone"

/-- `calculate_approval_time` (src/data_processor.py:118-144).  The
source tries to make naive operands aware with
`replace(tzinfo=datetime.timezone.utc)`, but evaluating
`datetime.timezone` raises `AttributeError` (see `attributeErrorMsg`)
and there is no surrounding try/except — so whenever a naive operand
sits beside a resolvable terminal timestamp the function raises instead
of returning.  Only aware-aware pairs reach the subtraction, whose
result is the raw seconds difference divided by 86400; the merged
timestamp is still checked before the closed one, and an unresolvable
creation timestamp or the absence of both terminal timestamps returns
`None` without touching the normalization lines. -/
def calculate_approval_time (p : RawProposal) : Except String (Option ℚ) :=
  match parse_date p.created_at with
  | none => Except.ok none
  | some c =>
      match parse_date p.merged_at with
      | some m =>
          if c.aware = false then Except.error attributeErrorMsg
          else if m.aware = false then Except.error attributeErrorMsg
          else Except.ok (some (((m.seconds - c.seconds : Int) : ℚ) / 86400))
      | none =>
          match parse_date p.closed_at with
          | some cl =>
              if c.aware = false then Except.error attributeErrorMsg
              else if cl.aware = false then Except.error attributeErrorMsg
              else Except.ok (some (((cl.seconds - c.seconds : Int) : ℚ) / 86400))
          | none => Except.ok none

/-! ### GrantDataProcessor.extract_rejection_reason (src/data_processor.py:146-162) -/

def rejection_keywords : List String :=
  ["reject", "rejected", "decline", "declined", "not approved",
   "does not meet", "insufficient", "incomplete", "denied"]

def extract_rejection_reason (p : RawProposal) : Option String :=
  if p.merged then none
  else
    p.comments.findSome? fun c =>
      let body := pyLower ((c.body.getD "").data)
      if rejection_keywords.any (fun k => strContains body k.data) then some (c.body.getD "")
      else none

/-! ### GrantDataProcessor.process_proposal (src/data_processor.py:192-222) -/

structure ProcessedRow where
  id : Option Int
  number : Option Int
  title : String
  description : String
  author : String
  repository : String
  repository_info : List (String × String)
  state : String
  merged : Bool
  created_at : Option DateStr
  updated_at : Option DateStr
  closed_at : Option DateStr
  merged_at : Option DateStr
  milestones : Nat
  curators : List String
  category : String
  approval_time_days : Option ℚ
  rejection_reason : Option String
  bounty_amount : Option ℚ
  labels : List String
  comments_count : Nat
  reviews_count : Nat
  additions : Int
  deletions : Int
  changed_files : Int
deriving DecidableEq, Repr

/-- Two entries of the processed dict can raise: `determine_category`
(its `TypeError` on aware open records) and `calculate_approval_time`
(its `AttributeError` on naive operands with a terminal timestamp).
Python evaluates the dict literal's values in order, so the `category`
entry (line 210) is evaluated before `approval_time_days` (line 211);
either exception propagates out of `process_proposal` and is caught by
the batch loop. -/
def process_proposal (now : Int) (p : RawProposal) : Except String ProcessedRow :=
  match determine_category now p with
  | Except.error e => Except.error e
  | Except.ok cat =>
      match calculate_approval_time p with
      | Except.error e => Except.error e
      | Except.ok approval_days =>
      Except.ok
        { id := p.id
          number := p.number
          title := p.title.getD ""
          description := p.body.getD ""
          author :=
            match p.user with
            | none => ""
            | some u => u.login.getD ""
          repository := p.repository.getD ""
          repository_info := p.repository_info
          state := p.state.getD ""
          merged := p.merged
          created_at := p.created_at
          updated_at := p.updated_at
          closed_at := p.closed_at
          merged_at := p.merged_at
          milestones := extract_milestones (p.body.getD "")
          curators := extract_curators p
          category := cat
          approval_time_days := approval_days
          rejection_reason := extract_rejection_reason p
          bounty_amount := extract_bounty_amount (p.body.getD "")
          labels := p.labels.map (fun l => l.name.getD "")
          comments_count := p.comments.length
          reviews_count := p.reviews.length
          additions := p.additions.getD 0
          deletions := p.deletions.getD 0
          changed_files := p.changed_files.getD 0 }

/-! ### GrantDataProcessor.process_all_proposals (src/data_processor.py:224-253) -/

/-- `pandas.to_datetime` (default `errors='raise'`) on one cell: `None`
becomes `NaT`, a parseable string its timestamp, an unparseable string
raises.  The successfully converted frame carries the same information
as the rows (DateStr already holds the seconds), so the model keeps the
rows and only reproduces the conversion's errors. -/
def pdToDatetime : Option DateStr → Except String (Option Int)
  | none => Except.ok none
  | some (.isoAware s) => Except.ok (some s)
  | some (.isoNaive s) => Except.ok (some s)
  | some (.nonIsoPandas s) => Except.ok (some s)
  | some .garbage => Except.error ("DateParseError: unparseable date string")

/-- The batch loop: per-record errors are caught and the record skipped
(`try/except ... continue`); afterwards the four date columns are run
through `pd.to_datetime`, column by column — on an empty frame the
columns are absent and the conversion loop is skipped. -/
def process_all_proposals (now : Int) (proposals : List (String × List RawProposal)) :
    Except String (List ProcessedRow) :=
  let all_processed :=
    ((proposals.map Prod.snd).flatten).filterMap fun p => (process_proposal now p).toOption
  if all_processed.isEmpty then Except.ok []
  else
    match (all_processed.map (fun r => r.created_at)).mapM pdToDatetime with
    | Except.error e => Except.error e
    | Except.ok _ =>
        match (all_processed.map (fun r => r.updated_at)).mapM pdToDatetime with
        | Except.error e => Except.error e
        | Except.ok _ =>
            match (all_processed.map (fun r => r.closed_at)).mapM pdToDatetime with
            | Except.error e => Except.error e
            | Except.ok _ =>
                match (all_processed.map (fun r => r.merged_at)).mapM pdToDatetime with
                | Except.error e => Except.error e
                | Except.ok _ => Except.ok all_processed

/-! ### AIEvaluator (src/ai_evaluator.py)

The criteria-score mapping produced by `analyze_proposal_content`; the
consumers below read it with `.get(key, 0)`, so each field is optional
with default 0. -/

structure CriteriaScores where
  completeness : Option ℚ := none
  clarity : Option ℚ := none
  feasibility : Option ℚ := none
  impact : Option ℚ := none
  milestones : Option ℚ := none
deriving DecidableEq, Repr

/-- `AIEvaluator._identify_weaknesses` (src/ai_evaluator.py:235-250). -/
def identify_weaknesses (cs : CriteriaScores) : List String :=
  (if cs.completeness.getD 0 < 0.5 then ["Incomplete proposal - missing key information"] else []) ++
  (if cs.clarity.getD 0 < 0.5 then ["Unclear or poorly structured proposal"] else []) ++
  (if cs.feasibility.getD 0 < 0.5 then ["Project feasibility concerns"] else []) ++
  (if cs.impact.getD 0 < 0.5 then ["Limited ecosystem impact"] else []) ++
  (if cs.milestones.getD 0 < 0.5 then ["Poorly defined milestones"] else [])

/-- `AIEvaluator._generate_recommendations` (src/ai_evaluator.py:252-267). -/
def generate_recommendations (cs : CriteriaScores) : List String :=
  (if cs.completeness.getD 0 < 0.7 then ["Add more detailed project description and deliverables"] else []) ++
  (if cs.clarity.getD 0 < 0.7 then ["Improve proposal structure with clear sections"] else []) ++
  (if cs.feasibility.getD 0 < 0.7 then ["Provide more detailed implementation plan and timeline"] else []) ++
  (if cs.impact.getD 0 < 0.7 then ["Better articulate the ecosystem impact and benefits"] else []) ++
  (if cs.milestones.getD 0 < 0.7 then ["Define clear, measurable milestones with timelines"] else [])

set_option linter.unusedVariables false in
/-- `AIEvaluator._determine_risk_level` (src/ai_evaluator.py:269-278).
The `bounty_amount` parameter is accepted (the caller passes it) and
never read. -/
def determine_risk_level (overall_score : ℚ) (bounty_amount : ℚ) : String :=
  if overall_score ≥ 0.8 then "LOW"
  else if overall_score ≥ 0.6 then "MEDIUM"
  else if overall_score ≥ 0.4 then "HIGH"
  else "VERY_HIGH"

/-- `AIEvaluator._estimate_approval_probability` (src/ai_evaluator.py:280-292). -/
def estimate_approval_probability (overall_score : ℚ) : ℚ :=
  if overall_score ≥ 0.8 then 0.85
  else if overall_score ≥ 0.7 then 0.70
  else if overall_score ≥ 0.6 then 0.50
  else if overall_score ≥ 0.5 then 0.30
  else 0.15

/-! ### Spec-side definitions

These follow the *spec's words* (not the source) and exist only to be
compared against the source-derived definitions above. -/

/-- Modelled from the spec (§4.1): "matches patterns ...; if multiple
numeric matches are found, returns the maximum; if no numeric pattern
matches but the literal word `milestone` occurs, returns the occurrence
count; otherwise 0."  The maximum here ranges over the matches of *all*
patterns, the reading under which claim C6 is stated. -/
def spec_milestone_count (body : String) : Nat :=
  if body = "" then 0
  else
    let lowered := pyLower body.data
    let allMatches := milestone_patterns.flatMap fun p => pyFindall p lowered
    if allMatches.isEmpty then
      let mentions := (pyFindall (.lit (("milestone").data) false) lowered).length
      if mentions > 0 then mentions else 0
    else maxOfList (allMatches.filterMap intParse)

/-! ### Shape predicates for regex captures -/

/-- Concatenations of chunks, each satisfying `P`. -/
inductive Chunks (P : List Char → Prop) : List Char → Prop where
  | nil : Chunks P []
  | cons {u v : List Char} : P u → Chunks P v → Chunks P (u ++ v)

def AllDigits (l : List Char) : Prop := ∀ c ∈ l, c.isDigit = true

/-- The text consumed by one `,\d{3}` repetition. -/
def CChunk (l : List Char) : Prop :=
  ∃ a b c, l = [',', a, b, c] ∧ a.isDigit = true ∧ b.isDigit = true ∧ c.isDigit = true

/-- The text consumed by the optional `\.\d{2}` tail. -/
def DecTail (l : List Char) : Prop :=
  ∃ a b, l = ['.', a, b] ∧ a.isDigit = true ∧ b.isDigit = true

/-- The language of the capture group `(\d+(?:,\d{3})*(?:\.\d{2})?)`. -/
def GoodAmt (l : List Char) : Prop :=
  ∃ t₁ t₂ t₃, l = t₁ ++ t₂ ++ t₃ ∧ t₁ ≠ [] ∧ AllDigits t₁ ∧ Chunks CChunk t₂ ∧
    (t₃ = [] ∨ DecTail t₃)

/-! ### Predicates and concrete records used by the claims -/

/-- A merge signal as the spec defines it: explicit merged flag or
non-null merge timestamp. -/
def MergeSignal (p : RawProposal) : Prop :=
  p.merged = true ∨ p.merged_at.isSome = true

/-- The record hits `determine_category`'s stale branch: open state,
naive resolvable creation timestamp, more than 60 days old. -/
def StaleHit (now : Int) (p : RawProposal) : Prop :=
  pyUpperStr (p.state.getD "") = "OPEN" ∧
  ∃ c, parse_date p.created_at = some c ∧ c.aware = false ∧
    60 < Int.fdiv (now - c.seconds) 86400

/-- No date field of the raw record holds a string that
`pandas.to_datetime` rejects. -/
def NoGarbageDates (p : RawProposal) : Prop :=
  p.created_at ≠ some DateStr.garbage ∧ p.updated_at ≠ some DateStr.garbage ∧
  p.closed_at ≠ some DateStr.garbage ∧ p.merged_at ≠ some DateStr.garbage

def PandasSafe (input : List (String × List RawProposal)) : Prop :=
  ∀ p ∈ (input.map Prod.snd).flatten, NoGarbageDates p

instance : DecidablePred NoGarbageDates := fun p => by
  unfold NoGarbageDates
  infer_instance

instance (input : List (String × List RawProposal)) : Decidable (PandasSafe input) := by
  unfold PandasSafe
  infer_instance

/-- An open pull request carrying a merge signal, created 100 days
before the `now` used with it (epoch 0, naive). -/
def c1MergedStale : RawProposal :=
  { state := some ("open"), merged := true, created_at := some (.isoNaive 0) }

/-- An open record whose only category signal is an `Approved` label. -/
def c1LabelApproved : RawProposal :=
  { state := some ("open"), labels := [{ name := some ("Approved") }] }

/-- An open record with a timezone-aware creation timestamp
(2024-03-01T00:00:00Z), the shape every GitHub API record has. -/
def c2OpenAware : RawProposal :=
  { state := some ("open"), created_at := some (.isoAware 1709251200) }

/-- The spec's scenario record: closed, merged, created 2024-01-01,
merged 2024-01-10 (both naive ISO dates, epoch seconds). -/
def c3Scenario : RawProposal :=
  { state := some ("closed"), merged := true,
    created_at := some (.isoNaive 1704067200),
    merged_at := some (.isoNaive 1704844800) }

/-- A record with no merge timestamp: created 2024-01-01 (naive),
closed 2024-01-03 (aware) — the close-time branch also hits the broken
normalization because the created operand is naive. -/
def c3ClosedOnly : RawProposal :=
  { state := some ("closed"),
    created_at := some (.isoNaive 1704067200),
    closed_at := some (.isoAware 1704240000) }

/-- The scenario's timestamps as aware values (created 2024-01-01Z,
merged 2024-01-10Z, closed 2024-01-03Z): the only shape on which the
normalization lines are skipped and a value is returned. -/
def c3AwareMerged : RawProposal :=
  { state := some ("closed"), merged := true,
    created_at := some (.isoAware 1704067200),
    merged_at := some (.isoAware 1704844800),
    closed_at := some (.isoAware 1704240000) }

/-- A closed record whose created_at string parses with neither
`parse_date` nor pandas. -/
def c4Garbage : RawProposal :=
  { state := some ("closed"), created_at := some DateStr.garbage }

/-- One record that fails per-record processing (open with aware
created_at) followed by one that processes fine. -/
def c4DemoInput : List (String × List RawProposal) :=
  [(("w3f-grants"),
    [ { state := some ("open"), created_at := some (.isoAware 1709251200) },
      { state := some ("closed"), created_at := some (.isoNaive 1704067200) } ])]

/-- A pandas-safe batch whose single record (all dates aware) survives
per-record processing. -/
def c4SafeInput : List (String × List RawProposal) :=
  [(("w3f-grants"), [c3AwareMerged])]

/-- A proposal whose author also commented on it. -/
def c5SelfComment : RawProposal :=
  { state := some ("closed"),
    user := some { login := some ("alice") },
    comments := [{ user := some { login := some ("alice") }, body := some ("looks good") }] }

/-! ## Theorems -/

/-! ### Claim C8 — risk-level and approval-probability thresholds -/

/-- C8: for every overall score, the risk level is LOW when the score is
at least 0.8, MEDIUM when at least 0.6, HIGH when at least 0.4, else
VERY_HIGH, with exact boundaries (exactly 0.80 yields LOW, 0.79999
yields MEDIUM), and the approval probability is the stepwise lookup
0.85 / 0.70 / 0.50 / 0.30 / 0.15 at the thresholds 0.8 / 0.7 / 0.6 / 0.5,
for any bounty amount. -/
theorem C8_risk_and_probability_thresholds :
    (∀ s b : ℚ, determine_risk_level s b =
      if s ≥ 8/10 then ("LOW")
      else if s ≥ 6/10 then ("MEDIUM")
      else if s ≥ 4/10 then ("HIGH")
      else ("VERY_HIGH"))
    ∧ (∀ s : ℚ, estimate_approval_probability s =
      if s ≥ 8/10 then 85/100
      else if s ≥ 7/10 then 70/100
      else if s ≥ 6/10 then 50/100
      else if s ≥ 5/10 then 30/100
      else 15/100)
    ∧ (∀ b : ℚ, determine_risk_level (80/100) b = "LOW")
    ∧ (∀ b : ℚ, determine_risk_level (79999/100000) b = "MEDIUM") := by
  refine ⟨fun s b => ?_, fun s => ?_, fun b => ?_, fun b => ?_⟩
  · unfold determine_risk_level
    norm_num
  · unfold estimate_approval_probability
    norm_num
  · unfold determine_risk_level
    norm_num
  · unfold determine_risk_level
    norm_num

/-! ### Claim C10 — risk level does not depend on the bounty amount -/

/-- C10: for any two evaluator calls with equal overall_score and
arbitrary, possibly different, bounty_amount values,
`determine_risk_level` returns the same risk level. -/
theorem C10_risk_level_ignores_bounty :
    ∀ s₁ s₂ b₁ b₂ : ℚ, s₁ = s₂ →
      determine_risk_level s₁ b₁ = determine_risk_level s₂ b₂ := by
  intro s₁ s₂ b₁ b₂ h
  subst h
  rfl

/-- Witness for C10 at overall score 1/2 with bounty amounts 0 and 10⁶. -/
theorem C10_risk_level_ignores_bounty_witness :
    determine_risk_level (1/2) 0 = determine_risk_level (1/2) 1000000 :=
  C10_risk_level_ignores_bounty (1/2) (1/2) 0 1000000 rfl

/-! ### Claim C9 — a weakness line always comes with a recommendation -/

/-- Chunk-length comparison used for C9: a sub-score below the weakness
threshold is also below the (larger) recommendation threshold. -/
theorem chunkLen_le {q a b : ℚ} (hab : a ≤ b) (s t : String) :
    (if q < a then [s] else []).length ≤ (if q < b then [t] else []).length := by
  split_ifs with h1 h2 <;> simp_all
  linarith

/-- C9: every criterion that produces a weakness line (sub-score below
0.5) also produces a recommendation line (generated below 0.7); hence a
non-empty weaknesses list forces a non-empty recommendations list. -/
theorem C9_weakness_implies_recommendation :
    ∀ cs : CriteriaScores,
      (identify_weaknesses cs).length ≤ (generate_recommendations cs).length ∧
      (identify_weaknesses cs ≠ [] → generate_recommendations cs ≠ []) := by
  intro cs
  have hlen : (identify_weaknesses cs).length ≤ (generate_recommendations cs).length := by
    unfold identify_weaknesses generate_recommendations
    simp only [List.length_append]
    have h57 : (0.5 : ℚ) ≤ 0.7 := by norm_num
    gcongr <;> exact chunkLen_le h57 _ _
  refine ⟨hlen, fun hne hrec => ?_⟩
  rw [hrec] at hlen
  simp only [List.length_nil, Nat.le_zero, List.length_eq_zero] at hlen
  exact hne hlen

/-- Witness for C9: the all-defaulted score mapping (every sub-score
reads as 0) produces five weakness lines, so the recommendations list is
non-empty. -/
theorem C9_weakness_implies_recommendation_witness :
    identify_weaknesses {} ≠ [] ∧ generate_recommendations {} ≠ [] :=
  ⟨by norm_num [identify_weaknesses]; exact List.cons_ne_nil _ _,
   (C9_weakness_implies_recommendation {}).2
     (by norm_num [identify_weaknesses]; exact List.cons_ne_nil _ _)⟩

/-! ### Claim C1 — when APPROVED is returned -/

theorem fall_through_approved_iff (p : RawProposal) (cat : String)
    (h : category_fall_through p = Except.ok cat) :
    (cat = "APPROVED" ↔
      (MergeSignal p ∨
        (pyUpperStr (p.state.getD "") = "OPEN" ∧
          firstCategoryLabel p.labels = some ("APPROVED")))) := by
  unfold category_fall_through at h
  split at h
  case isTrue hm =>
    obtain rfl : cat = "APPROVED" := (Except.ok.inj h).symm
    simp only [true_iff]
    exact Or.inl (Bool.or_eq_true_iff.mp hm)
  case isFalse hm =>
    have hms : ¬ MergeSignal p := by
      intro hs
      exact hm (Bool.or_eq_true_iff.mpr hs)
    split at h
    case isTrue hcl =>
      obtain rfl : cat = "REJECTED" := (Except.ok.inj h).symm
      constructor
      · intro hc
        exact absurd hc (by decide)
      · rintro (hs | ⟨hop, _⟩)
        · exact absurd hs hms
        · rw [hcl] at hop
          exact absurd hop (by decide)
    case isFalse hcl =>
      split at h
      case isTrue hop =>
        split at h
        next lbl heq =>
          obtain rfl : cat = lbl := (Except.ok.inj h).symm
          constructor
          · intro hc
            exact Or.inr ⟨hop, by rw [heq, hc]⟩
          · rintro (hs | ⟨_, hfl⟩)
            · exact absurd hs hms
            · rw [heq] at hfl
              exact Option.some.inj hfl
        next heq =>
          obtain rfl : cat = "PENDING" := (Except.ok.inj h).symm
          constructor
          · intro hc
            exact absurd hc (by decide)
          · rintro (hs | ⟨_, hfl⟩)
            · exact absurd hs hms
            · rw [heq] at hfl
              exact Option.noConfusion hfl
      case isFalse hop =>
        obtain rfl : cat = "UNKNOWN" := (Except.ok.inj h).symm
        constructor
        · intro hc
          exact absurd hc (by decide)
        · rintro (hs | ⟨hop2, _⟩)
          · exact absurd hs hms
          · exact absurd hop2 hop

/-- C1 (amended): when `determine_category` returns a category at all,
that category is APPROVED iff the stale branch did not fire and either a
merge signal is present or the record is open and its first
category-vocabulary label is APPROVED.  The merge check takes precedence
over the closed/label/pending checks but *not* over the staleness
check. -/
theorem C1_amended_approved_iff :
    ∀ (now : Int) (p : RawProposal) (cat : String),
      determine_category now p = Except.ok cat →
      (cat = "APPROVED" ↔
        (¬ StaleHit now p ∧
          (MergeSignal p ∨
            (pyUpperStr (p.state.getD "") = "OPEN" ∧
              firstCategoryLabel p.labels = some ("APPROVED"))))) := by
  intro now p cat h
  unfold determine_category at h
  split at h
  case isTrue hop =>
    split at h
    next c heq =>
      split at h
      case isTrue haw => exact Except.noConfusion h
      case isFalse haw =>
        split at h
        case isTrue hst =>
          obtain rfl : cat = "STALE" := (Except.ok.inj h).symm
          have hstale : StaleHit now p :=
            ⟨hop, c, heq, Bool.not_eq_true _ ▸ Bool.of_not_eq_true haw, hst⟩
          constructor
          · intro hc
            exact absurd hc (by decide)
          · rintro ⟨hns, _⟩
            exact absurd hstale hns
        case isFalse hst =>
          have hns : ¬ StaleHit now p := by
            rintro ⟨_, c', heq', _, hgt⟩
            rw [heq] at heq'
            obtain rfl : c = c' := Option.some.inj heq'
            exact hst hgt
          rw [fall_through_approved_iff p cat h]
          exact (and_iff_right hns).symm
    next heq =>
      have hns : ¬ StaleHit now p := by
        rintro ⟨_, c', heq', _, _⟩
        rw [heq] at heq'
        exact Option.noConfusion heq'
      rw [fall_through_approved_iff p cat h]
      exact (and_iff_right hns).symm
  case isFalse hop =>
    have hns : ¬ StaleHit now p := fun hs => hop hs.1
    rw [fall_through_approved_iff p cat h]
    exact (and_iff_right hns).symm

/-- C1 counterexample: an open pull request with an explicit merge flag,
created 100 days before `now`, is classified STALE, not APPROVED — the
staleness check takes precedence over the merge signal, refuting both
directions of the claimed precedence. -/
theorem C1_counterexample_merge_loses_to_stale :
    MergeSignal c1MergedStale ∧
    determine_category 8640000 c1MergedStale = Except.ok ("STALE") ∧
    determine_category 8640000 c1MergedStale ≠ Except.ok ("APPROVED") := by
  refine ⟨Or.inl rfl, rfl, fun h => ?_⟩
  exact absurd (Except.ok.inj h) (by decide)

/-- Witness for C1 (amended) at a record approved through its label. -/
theorem C1_amended_approved_iff_witness :
    (("APPROVED" : String) = "APPROVED" ↔
      (¬ StaleHit 0 c1LabelApproved ∧
        (MergeSignal c1LabelApproved ∨
          (pyUpperStr ((c1LabelApproved.state).getD "") = "OPEN" ∧
            firstCategoryLabel c1LabelApproved.labels = some ("APPROVED"))))) :=
  C1_amended_approved_iff 0 c1LabelApproved "APPROVED" rfl

/-! ### Claim C2 — the stale classification on real timestamps -/

/-- C2: on an open record whose creation timestamp is resolvable and
timezone-aware (every GitHub `...Z` timestamp) and 214 days old —
squarely inside the claim's domain — `determine_category` does not
return STALE but raises the `TypeError` of
`datetime.now() - created_at`; the claim matches the spec's intent and
the code is in error. -/
theorem C2_stale_check_raises_on_aware_created :
    determine_category 1727740800 c2OpenAware =
      Except.error ("TypeError: cannot subtract offset-aware datetime from naive datetime") ∧
    60 < Int.fdiv (1727740800 - 1709251200) 86400 :=
  ⟨rfl, by decide⟩

/-! ### Claim C3 — approval time -/

/-- C3: on the claim's own scenario record (created 2024-01-01, merged
2024-01-10, both parsed naive) `calculate_approval_time` does not
return 9.0 — the naive-to-UTC normalization line raises
`AttributeError` because `datetime.timezone` is looked up on the
imported class; the close-time fallback path raises the same way when
the created operand is naive; only an all-aware record (same scenario
dates with offsets) returns the claimed value, with the merged
timestamp preferred over the closed one. -/
theorem C3_approval_time_normalization_raises :
    calculate_approval_time c3Scenario = Except.error attributeErrorMsg ∧
    calculate_approval_time c3ClosedOnly = Except.error attributeErrorMsg ∧
    calculate_approval_time c3AwareMerged = Except.ok (some 9) := by
  refine ⟨rfl, rfl, ?_⟩
  norm_num [calculate_approval_time, c3AwareMerged, parse_date]

/-! ### Claim C4 — batch processing safety -/

theorem pdToDatetime_ok_of_not_garbage {x : Option DateStr} (hx : x ≠ some DateStr.garbage) :
    ∃ w, pdToDatetime x = Except.ok w := by
  match x with
  | none => exact ⟨none, rfl⟩
  | some (.isoAware s) => exact ⟨some s, rfl⟩
  | some (.isoNaive s) => exact ⟨some s, rfl⟩
  | some (.nonIsoPandas s) => exact ⟨some s, rfl⟩
  | some .garbage => exact absurd rfl hx

theorem mapM_pdToDatetime_ok (l : List (Option DateStr))
    (h : ∀ x ∈ l, x ≠ some DateStr.garbage) :
    ∃ v, l.mapM pdToDatetime = Except.ok v := by
  induction l with
  | nil => exact ⟨[], rfl⟩
  | cons a t ih =>
      obtain ⟨v, hv⟩ := ih (fun x hx => h x (List.mem_cons_of_mem _ hx))
      obtain ⟨w, hw⟩ := pdToDatetime_ok_of_not_garbage (h a (List.mem_cons_self _ _))
      refine ⟨w :: v, ?_⟩
      rw [List.mapM_cons, hw, hv]
      rfl

theorem process_proposal_preserves_dates {now : Int} {p : RawProposal} {row : ProcessedRow}
    (h : process_proposal now p = Except.ok row) :
    row.created_at = p.created_at ∧ row.updated_at = p.updated_at ∧
    row.closed_at = p.closed_at ∧ row.merged_at = p.merged_at := by
  unfold process_proposal at h
  split at h
  · exact Except.noConfusion h
  · split at h
    · exact Except.noConfusion h
    · obtain rfl := (Except.ok.inj h)
      exact ⟨rfl, rfl, rfl, rfl⟩

theorem toOption_ok {ε α : Type} {x : Except ε α} {v : α}
    (h : x.toOption = some v) : x = Except.ok v := by
  cases x with
  | error e => exact Option.noConfusion h
  | ok w => rw [Option.some.inj h]

/-- C4 (amended): the batch loop catches every per-record processing
error (both the classifier's `TypeError` and the approval-time
`AttributeError`) — the output rows are exactly the successfully
processed records, in order — and the empty input yields the empty
table; on the demo input the failing first record is skipped while the
second is processed.  (The claim fails only at the subsequent pandas
date conversion, see the counterexample.) -/
theorem C4_amended_batch_error_containment :
    (∀ now : Int, process_all_proposals now [] = Except.ok [])
    ∧ (∀ (now : Int) (input : List (String × List RawProposal)), PandasSafe input →
        process_all_proposals now input =
          Except.ok (((input.map Prod.snd).flatten).filterMap
            fun p => (process_proposal now p).toOption))
    ∧ Except.map List.length (process_all_proposals 1727740800 c4DemoInput) =
        Except.ok 1 := by
  refine ⟨fun now => rfl, ?_, rfl⟩
  intro now input hsafe
  have hrow : ∀ r ∈ ((input.map Prod.snd).flatten).filterMap
      (fun p => (process_proposal now p).toOption),
      r.created_at ≠ some DateStr.garbage ∧ r.updated_at ≠ some DateStr.garbage ∧
      r.closed_at ≠ some DateStr.garbage ∧ r.merged_at ≠ some DateStr.garbage := by
    intro r hr
    obtain ⟨p, hp, hpr⟩ := List.mem_filterMap.mp hr
    obtain ⟨h1, h2, h3, h4⟩ := process_proposal_preserves_dates (toOption_ok hpr)
    obtain ⟨g1, g2, g3, g4⟩ := hsafe p hp
    exact ⟨h1 ▸ g1, h2 ▸ g2, h3 ▸ g3, h4 ▸ g4⟩
  unfold process_all_proposals
  by_cases he :
      (((input.map Prod.snd).flatten).filterMap
        (fun p => (process_proposal now p).toOption)).isEmpty
  · rw [if_pos he]
    rw [List.isEmpty_iff.mp he]
  · rw [if_neg he]
    obtain ⟨v1, hv1⟩ := mapM_pdToDatetime_ok _ (by
      intro x hx
      obtain ⟨r, hr, rfl⟩ := List.mem_map.mp hx
      exact (hrow r hr).1)
    obtain ⟨v2, hv2⟩ := mapM_pdToDatetime_ok _ (by
      intro x hx
      obtain ⟨r, hr, rfl⟩ := List.mem_map.mp hx
      exact (hrow r hr).2.1)
    obtain ⟨v3, hv3⟩ := mapM_pdToDatetime_ok _ (by
      intro x hx
      obtain ⟨r, hr, rfl⟩ := List.mem_map.mp hx
      exact (hrow r hr).2.2.1)
    obtain ⟨v4, hv4⟩ := mapM_pdToDatetime_ok _ (by
      intro x hx
      obtain ⟨r, hr, rfl⟩ := List.mem_map.mp hx
      exact (hrow r hr).2.2.2)
    rw [hv1, hv2, hv3, hv4]

/-- C4 counterexample: a single closed record whose created_at string no
date parser accepts is processed into a row without any per-record
error, and then the batch's `pd.to_datetime` conversion raises — the
exception propagates out of `process_all_proposals`. -/
theorem C4_counterexample_garbage_date_raises :
    process_all_proposals 0 [(("w3f-grants"), [c4Garbage])] =
      Except.error ("DateParseError: unparseable date string") := rfl

/-- Witness for C4 (amended) on a concrete pandas-safe input. -/
theorem C4_amended_batch_error_containment_witness :
    process_all_proposals 123 c4SafeInput =
      Except.ok (((c4SafeInput.map Prod.snd).flatten).filterMap
        fun p => (process_proposal 123 p).toOption) :=
  C4_amended_batch_error_containment.2.1 123 c4SafeInput (by decide)

/-! ### Claim C5 — curators and the proposal author -/

theorem mem_foldl_dedup (l : List String) (acc : List String) (x : String) :
    (x ∈ l.foldl (fun acc x => if acc.contains x then acc else acc ++ [x]) acc) ↔
      (x ∈ acc ∨ x ∈ l) := by
  induction l generalizing acc with
  | nil => simp
  | cons a t ih =>
      rw [List.foldl_cons]
      by_cases h : acc.contains a
      · rw [if_pos h, ih]
        have ha : a ∈ acc := by simpa using h
        constructor
        · rintro (hx | hx)
          · exact Or.inl hx
          · exact Or.inr (List.mem_cons_of_mem _ hx)
        · rintro (hx | hx)
          · exact Or.inl hx
          · rcases List.mem_cons.mp hx with rfl | hx
            · exact Or.inl ha
            · exact Or.inr hx
      · rw [if_neg h, ih]
        simp only [List.mem_append, List.mem_singleton, List.mem_cons]
        tauto

theorem mem_pySetToList (l : List String) (x : String) :
    x ∈ pySetToList l ↔ x ∈ l := by
  unfold pySetToList
  rw [mem_foldl_dedup]
  simp

/-- C5 (amended): the curators list is computed only from comment and
review authorship — changing the author field never changes it — and
contains exactly the distinct truthy comment/review author logins; the
proposal's own author therefore appears exactly when they also appear as
a comment or review author. -/
theorem C5_amended_curators_membership :
    (∀ (p : RawProposal) (u : Option RawUser),
      extract_curators { p with user := u } = extract_curators p)
    ∧ (∀ (p : RawProposal) (x : String),
        x ∈ extract_curators p ↔
          x ∈ ((p.comments.filterMap fun c => truthyLogin c.user) ++
               (p.reviews.filterMap fun r => truthyLogin r.user))) := by
  exact ⟨fun p u => rfl, fun p x => mem_pySetToList _ _⟩

/-- C5 counterexample: when the author comments on their own proposal,
the curators list contains the author's identifier. -/
theorem C5_counterexample_author_among_curators :
    Except.map (fun r => r.author) (process_proposal 0 c5SelfComment) =
      Except.ok ("alice") ∧
    ("alice") ∈ extract_curators c5SelfComment := by
  refine ⟨rfl, ?_⟩
  have h : extract_curators c5SelfComment = [("alice")] := rfl
  rw [h]
  exact List.mem_singleton.mpr rfl

/-! ### Engine soundness lemmas

Everything the C6/C7 theorems need about `matchRE`/`pyFindall`: every
produced output consumes a prefix of the input, and the captures of the
bounty patterns always lie in the `GoodAmt` language. -/

theorem matchRE_cls_sound {P : Char → Bool} {s : List Char} {out : MOut}
    (h : out ∈ matchRE (.cls P) s) :
    ∃ c t, s = c :: t ∧ P c = true ∧ out = (none, t) := by
  cases s with
  | nil => exact absurd h (List.not_mem_nil _)
  | cons c t =>
      simp only [matchRE] at h
      split_ifs at h with hp
      · exact ⟨c, t, rfl, hp, List.mem_singleton.mp h⟩
      · exact absurd h (List.not_mem_nil _)

theorem litStrip_sound {ci : Bool} :
    ∀ {w s r : List Char}, litStrip ci w s = some r → ∃ t, s = t ++ r := by
  intro w
  induction w with
  | nil =>
      intro s r h
      exact ⟨[], by rw [Option.some.inj h]; rfl⟩
  | cons c w ih =>
      intro s r h
      cases s with
      | nil => exact Option.noConfusion h
      | cons a t =>
          simp only [litStrip] at h
          split_ifs at h with hm
          obtain ⟨u, hu⟩ := ih h
          exact ⟨a :: u, by rw [hu]; rfl⟩

theorem matchRE_lit_sound {w : List Char} {ci : Bool} {s : List Char} {out : MOut}
    (h : out ∈ matchRE (.lit w ci) s) :
    ∃ t, s = t ++ out.2 ∧ out.1 = none := by
  simp only [matchRE] at h
  cases hl : litStrip ci w s with
  | none =>
      rw [hl] at h
      exact absurd h (List.not_mem_nil _)
  | some r =>
      rw [hl] at h
      obtain rfl := List.mem_singleton.mp h
      obtain ⟨t, ht⟩ := litStrip_sound hl
      exact ⟨t, ht, rfl⟩

theorem matchRE_seq_sound {a b : RE} {s : List Char} {out : MOut}
    (h : out ∈ matchRE (.seq a b) s) :
    ∃ pr qr, pr ∈ matchRE a s ∧ qr ∈ matchRE b pr.2 ∧ out = (qr.1 <|> pr.1, qr.2) := by
  simp only [matchRE, List.mem_flatMap, List.mem_map] at h
  obtain ⟨pr, hpr, qr, hqr, hout⟩ := h
  exact ⟨pr, qr, hpr, hqr, hout.symm⟩

theorem matchRE_opt_sound {a : RE} {s : List Char} {out : MOut}
    (h : out ∈ matchRE (.opt a) s) : out ∈ matchRE a s ∨ out = (none, s) := by
  simp only [matchRE, List.mem_append, List.mem_singleton] at h
  exact h

theorem matchRE_group_sound {a : RE} {s : List Char} {out : MOut}
    (h : out ∈ matchRE (.group a) s) :
    ∃ pr, pr ∈ matchRE a s ∧ out = (some (s.take (s.length - pr.2.length)), pr.2) := by
  simp only [matchRE, List.mem_map] at h
  obtain ⟨pr, hpr, hout⟩ := h
  exact ⟨pr, hpr, hout.symm⟩

theorem starIter_sound {P : List Char → Prop} {ma : List Char → List MOut}
    (hma : ∀ s out, out ∈ ma s → ∃ t, s = t ++ out.2 ∧ P t ∧ out.1 = none) :
    ∀ (f : Nat) (s : List Char) (out : MOut), out ∈ starIter ma f s →
      ∃ t, s = t ++ out.2 ∧ Chunks P t ∧ out.1 = none := by
  intro f
  induction f with
  | zero =>
      intro s out h
      obtain rfl := List.mem_singleton.mp h
      exact ⟨[], rfl, Chunks.nil, rfl⟩
  | succ f ih =>
      intro s out h
      simp only [starIter, List.mem_append, List.mem_singleton] at h
      rcases h with h | rfl
      · rw [List.mem_flatMap] at h
        obtain ⟨pr, hpr, h⟩ := h
        split_ifs at h with hlen
        · rw [List.mem_map] at h
          obtain ⟨qr, hqr, rfl⟩ := h
          obtain ⟨t₁, ht₁, hp₁, hc₁⟩ := hma s pr hpr
          obtain ⟨t₂, ht₂, hp₂, hc₂⟩ := ih pr.2 qr hqr
          refine ⟨t₁ ++ t₂, ?_, Chunks.cons hp₁ hp₂, ?_⟩
          · rw [ht₁, ht₂, List.append_assoc]
          · simp [hc₁, hc₂]
        · exact absurd h (List.not_mem_nil _)
      · exact ⟨[], rfl, Chunks.nil, rfl⟩

theorem matchRE_star_sound {a : RE} {P : List Char → Prop}
    (hma : ∀ s out, out ∈ matchRE a s → ∃ t, s = t ++ out.2 ∧ P t ∧ out.1 = none)
    {s : List Char} {out : MOut} (h : out ∈ matchRE (.star a) s) :
    ∃ t, s = t ++ out.2 ∧ Chunks P t ∧ out.1 = none := by
  simp only [matchRE] at h
  exact starIter_sound hma s.length s out h

theorem chunks_flatten_digits {t : List Char}
    (h : Chunks (fun u => ∃ d, u = [d] ∧ d.isDigit = true) t) : AllDigits t := by
  induction h with
  | nil => exact fun c hc => absurd hc (List.not_mem_nil _)
  | cons hu _ ih =>
      obtain ⟨d, rfl, hd⟩ := hu
      intro c hc
      rcases List.mem_append.mp hc with hc | hc
      · rw [List.mem_singleton.mp hc]
        exact hd
      · exact ih c hc

theorem matchRE_cls_progress {P : Char → Bool} :
    ∀ (s : List Char) (out : MOut), out ∈ matchRE (.cls P) s →
      ∃ t, s = t ++ out.2 ∧ (∃ d, t = [d] ∧ P d = true) ∧ out.1 = none := by
  intro s out hm
  obtain ⟨d, u, rfl, hd, rfl⟩ := matchRE_cls_sound hm
  exact ⟨[d], rfl, ⟨d, rfl, hd⟩, rfl⟩

theorem digitsPlus_sound {s : List Char} {out : MOut} (h : out ∈ matchRE digitsPlus s) :
    ∃ t, s = t ++ out.2 ∧ t ≠ [] ∧ AllDigits t ∧ out.1 = none := by
  unfold digitsPlus digitRE at h
  obtain ⟨pr, qr, hpr, hqr, rfl⟩ := matchRE_seq_sound h
  obtain ⟨c, t0, rfl, hc, rfl⟩ := matchRE_cls_sound hpr
  obtain ⟨t₂, ht₂, hch, hq1⟩ := matchRE_star_sound (matchRE_cls_progress) hqr
  have ht₂' : t0 = t₂ ++ qr.2 := ht₂
  refine ⟨c :: t₂, ?_, List.cons_ne_nil _ _, ?_, ?_⟩
  · show c :: t0 = (c :: t₂) ++ qr.2
    rw [ht₂']
    rfl
  · intro x hx
    rcases List.mem_cons.mp hx with rfl | hx
    · exact hc
    · exact chunks_flatten_digits hch x hx
  · simp [hq1]

theorem commaChunk_sound {s : List Char} {out : MOut} (h : out ∈ matchRE commaChunkRE s) :
    ∃ t, s = t ++ out.2 ∧ CChunk t ∧ out.1 = none := by
  unfold commaChunkRE digitRE at h
  obtain ⟨pr, qr, hpr, hqr, rfl⟩ := matchRE_seq_sound h
  obtain ⟨c0, t0, rfl, hc0, rfl⟩ := matchRE_cls_sound hpr
  obtain ⟨pr2, qr2, hpr2, hqr2, rfl⟩ := matchRE_seq_sound hqr
  obtain ⟨a, t1, rfl, ha, rfl⟩ := matchRE_cls_sound hpr2
  obtain ⟨pr3, qr3, hpr3, hqr3, rfl⟩ := matchRE_seq_sound hqr2
  obtain ⟨b, t2, rfl, hb, rfl⟩ := matchRE_cls_sound hpr3
  obtain ⟨c, t3, rfl, hc, rfl⟩ := matchRE_cls_sound hqr3
  obtain rfl : c0 = ',' := eq_of_beq hc0
  exact ⟨[',', a, b, c], rfl, ⟨a, b, c, rfl, ha, hb, hc⟩, rfl⟩

theorem decPart_sound {s : List Char} {out : MOut} (h : out ∈ matchRE decPartRE s) :
    ∃ t, s = t ++ out.2 ∧ DecTail t ∧ out.1 = none := by
  unfold decPartRE digitRE at h
  obtain ⟨pr, qr, hpr, hqr, rfl⟩ := matchRE_seq_sound h
  obtain ⟨c0, t0, rfl, hc0, rfl⟩ := matchRE_cls_sound hpr
  obtain ⟨pr2, qr2, hpr2, hqr2, rfl⟩ := matchRE_seq_sound hqr
  obtain ⟨a, t1, rfl, ha, rfl⟩ := matchRE_cls_sound hpr2
  obtain ⟨b, t2, rfl, hb, rfl⟩ := matchRE_cls_sound hqr2
  obtain rfl : c0 = '.' := eq_of_beq hc0
  exact ⟨['.', a, b], rfl, ⟨a, b, rfl, ha, hb⟩, rfl⟩

theorem amt_sound {s : List Char} {out : MOut} (h : out ∈ matchRE amtRE s) :
    ∃ t, s = t ++ out.2 ∧ GoodAmt t ∧ out.1 = none := by
  unfold amtRE at h
  obtain ⟨pr, qr, hpr, hqr, rfl⟩ := matchRE_seq_sound h
  obtain ⟨t₁, ht₁, hne, hd, hp1⟩ := digitsPlus_sound hpr
  obtain ⟨pr2, qr2, hpr2, hqr2, rfl⟩ := matchRE_seq_sound hqr
  obtain ⟨t₂, ht₂, hch, hp2⟩ :=
    matchRE_star_sound (fun s out hm => commaChunk_sound hm) hpr2
  rcases matchRE_opt_sound hqr2 with hdec | rfl
  · obtain ⟨t₃, ht₃, hdc, hp3⟩ := decPart_sound hdec
    refine ⟨t₁ ++ t₂ ++ t₃, ?_, ⟨t₁, t₂, t₃, rfl, hne, hd, hch, Or.inr hdc⟩, ?_⟩
    · rw [ht₁, ht₂, ht₃]
      simp [List.append_assoc]
    · simp [hp1, hp2, hp3]
  · refine ⟨t₁ ++ t₂ ++ [], ?_, ⟨t₁, t₂, [], rfl, hne, hd, hch, Or.inl rfl⟩, ?_⟩
    · rw [ht₁, ht₂]
      simp [List.append_assoc]
    · simp [hp1, hp2]

theorem group_amt_capture {s : List Char} {out : MOut}
    (h : out ∈ matchRE (.group amtRE) s) :
    ∃ cap, out.1 = some cap ∧ GoodAmt cap := by
  obtain ⟨pr, hpr, rfl⟩ := matchRE_group_sound h
  obtain ⟨t, ht, hg, _⟩ := amt_sound hpr
  refine ⟨t, ?_, hg⟩
  rw [ht]
  simp [List.length_append, List.take_left]

theorem star_cls_capture_none {P : Char → Bool} {s : List Char} {out : MOut}
    (h : out ∈ matchRE (.star (.cls P)) s) : out.1 = none := by
  obtain ⟨_, _, _, hc⟩ := matchRE_star_sound (matchRE_cls_progress) h
  exact hc

theorem shape_dollar_capture {w : List Char} {ci : Bool} {s : List Char} {out : MOut}
    (h : out ∈ matchRE (.seq (.lit w ci) (.group amtRE)) s) :
    ∃ cap, out.1 = some cap ∧ GoodAmt cap := by
  obtain ⟨pr, qr, hpr, hqr, rfl⟩ := matchRE_seq_sound h
  obtain ⟨_, _, hl⟩ := matchRE_lit_sound hpr
  obtain ⟨cap, hc, hg⟩ := group_amt_capture hqr
  exact ⟨cap, by simp [hc, hl], hg⟩

theorem shape_suffix_capture {w : List Char} {ci : Bool} {s : List Char} {out : MOut}
    (h : out ∈ matchRE (.seq (.group amtRE) (.seq wsStar (.lit w ci))) s) :
    ∃ cap, out.1 = some cap ∧ GoodAmt cap := by
  obtain ⟨pr, qr, hpr, hqr, rfl⟩ := matchRE_seq_sound h
  obtain ⟨cap, hc, hg⟩ := group_amt_capture hpr
  obtain ⟨pr2, qr2, hpr2, hqr2, rfl⟩ := matchRE_seq_sound hqr
  have hs : pr2.1 = none := star_cls_capture_none hpr2
  obtain ⟨_, _, hl⟩ := matchRE_lit_sound hqr2
  exact ⟨cap, by simp [hc, hs, hl], hg⟩

theorem shape_label_capture {w : List Char} {ci : Bool} {s : List Char} {out : MOut}
    (h : out ∈ matchRE (.seq (.lit w ci) (.seq colonWsStar (.group amtRE))) s) :
    ∃ cap, out.1 = some cap ∧ GoodAmt cap := by
  obtain ⟨pr, qr, hpr, hqr, rfl⟩ := matchRE_seq_sound h
  obtain ⟨_, _, hl⟩ := matchRE_lit_sound hpr
  obtain ⟨pr2, qr2, hpr2, hqr2, rfl⟩ := matchRE_seq_sound hqr
  have hs : pr2.1 = none := star_cls_capture_none hpr2
  obtain ⟨cap, hc, hg⟩ := group_amt_capture hqr2
  exact ⟨cap, by simp [hc, hs, hl], hg⟩

theorem amount_pattern_capture_good {p : RE} (hp : p ∈ amount_patterns) :
    ∀ (s : List Char) (out : MOut), out ∈ matchRE p s →
      ∃ cap, out.1 = some cap ∧ GoodAmt cap := by
  intro s out h
  fin_cases hp
  · exact shape_dollar_capture h
  · exact shape_suffix_capture h
  · exact shape_suffix_capture h
  · exact shape_suffix_capture h
  · exact shape_label_capture h
  · exact shape_label_capture h
  · exact shape_label_capture h

theorem findallAux_capture_good {re : RE}
    (H : ∀ s out, out ∈ matchRE re s → ∃ cap, out.1 = some cap ∧ GoodAmt cap) :
    ∀ (f : Nat) (s m : List Char), m ∈ findallAux f re s → GoodAmt m := by
  intro f
  induction f with
  | zero =>
      intro s m hm
      simp [findallAux] at hm
  | succ f ih =>
      intro s m hm
      simp only [findallAux] at hm
      split at hm
      case h_1 pr hpr =>
        have hmem : pr ∈ matchRE re s := by
          cases hq : matchRE re s with
          | nil =>
              rw [hq] at hpr
              exact Option.noConfusion hpr
          | cons x xs =>
              rw [hq] at hpr
              rw [List.head?_cons] at hpr
              obtain rfl := Option.some.inj hpr
              exact List.mem_cons_self _ _
        obtain ⟨cap, hcap, hgood⟩ := H s pr hmem
        have hemit : pr.1.getD (s.take (s.length - pr.2.length)) = cap := by
          rw [hcap]
          rfl
        split_ifs at hm with hlen
        · rcases List.mem_cons.mp hm with rfl | hm
          · rw [hemit]
            exact hgood
          · exact ih pr.2 m hm
        · split at hm
          · rw [List.mem_singleton.mp hm, hemit]
            exact hgood
          · rcases List.mem_cons.mp hm with rfl | hm
            · rw [hemit]
              exact hgood
            · exact ih _ m hm
      case h_2 hpr =>
        split at hm
        · exact absurd hm (List.not_mem_nil _)
        · exact ih _ m hm

theorem pyFindall_capture_good {p : RE} (hp : p ∈ amount_patterns) {s : List Char} :
    ∀ m ∈ pyFindall p s, GoodAmt m :=
  fun m hm => findallAux_capture_good (amount_pattern_capture_good hp) _ s m hm

/-! ### From `GoodAmt` captures to successful `float()` parses -/

theorem digit_ne_comma {c : Char} (h : c.isDigit = true) : (c == ',') = false := by
  cases hbe : c == ','
  · rfl
  · have hc := eq_of_beq hbe
    subst hc
    exact absurd h (by decide)

theorem allDigits_append {l₁ l₂ : List Char} (h₁ : AllDigits l₁) (h₂ : AllDigits l₂) :
    AllDigits (l₁ ++ l₂) := by
  intro c hc
  rcases List.mem_append.mp hc with hc | hc
  · exact h₁ c hc
  · exact h₂ c hc

theorem allDigits_strip_id {l : List Char} (h : AllDigits l) : stripCommas l = l :=
  List.filter_eq_self.mpr fun c hc => by rw [digit_ne_comma (h c hc)]; rfl

theorem chunks_strip_digits {t : List Char} (h : Chunks CChunk t) :
    AllDigits (stripCommas t) := by
  induction h with
  | nil =>
      intro c hc
      simp [stripCommas] at hc
  | cons hu _ ih =>
      obtain ⟨a, b, c, rfl, ha, hb, hc⟩ := hu
      have hchunk : stripCommas [',', a, b, c] = [a, b, c] := by
        unfold stripCommas
        rw [List.filter_cons, List.filter_cons, List.filter_cons, List.filter_cons]
        simp [digit_ne_comma ha, digit_ne_comma hb, digit_ne_comma hc]
      show AllDigits (stripCommas ([',', a, b, c] ++ _))
      unfold stripCommas at hchunk ih ⊢
      rw [List.filter_append, hchunk]
      intro x hx
      rcases List.mem_append.mp hx with hx | hx
      · rcases List.mem_cons.mp hx with rfl | hx
        · exact ha
        · rcases List.mem_cons.mp hx with rfl | hx
          · exact hb
          · rw [List.mem_singleton.mp hx]
            exact hc
      · exact ih x hx

theorem spanDigits_split {d r : List Char} (hd : AllDigits d)
    (hr : ∀ c t, r = c :: t → c.isDigit = false) :
    spanDigits (d ++ r) = (d, r) := by
  induction d with
  | nil =>
      cases r with
      | nil => rfl
      | cons c t =>
          simp only [List.nil_append, spanDigits]
          simp [hr c t rfl]
  | cons a d ih =>
      have ha : a.isDigit = true := hd a (List.mem_cons_self _ _)
      have ihd := ih fun c hc => hd c (List.mem_cons_of_mem _ hc)
      simp only [List.cons_append, spanDigits, ha, if_true, List.append_eq, ihd]

theorem pyFloat_goodAmt_isSome {t : List Char} (h : GoodAmt t) :
    (pyFloat (stripCommas t)).isSome = true := by
  obtain ⟨t₁, t₂, t₃, rfl, hne, hd1, hch, hdec⟩ := h
  have hs2 : AllDigits (stripCommas t₂) := chunks_strip_digits hch
  have hs1 : stripCommas t₁ = t₁ := allDigits_strip_id hd1
  have hd : AllDigits (t₁ ++ stripCommas t₂) := allDigits_append hd1 hs2
  have hnd : (t₁ ++ stripCommas t₂).isEmpty = false := by
    cases hb : t₁ ++ stripCommas t₂ with
    | nil => exact absurd (List.append_eq_nil.mp hb).1 hne
    | cons x xs => rfl
  rcases hdec with rfl | ⟨a, b, rfl, ha, hb⟩
  · have hall : stripCommas (t₁ ++ t₂ ++ []) = t₁ ++ stripCommas t₂ := by
      unfold stripCommas at hs1 ⊢
      rw [List.append_nil, List.filter_append, hs1]
    rw [hall]
    have hsp : spanDigits (t₁ ++ stripCommas t₂) = (t₁ ++ stripCommas t₂, []) := by
      have h0 := spanDigits_split (d := t₁ ++ stripCommas t₂) (r := []) hd
        (fun c t hcon => nomatch hcon)
      rwa [List.append_nil] at h0
    simp [pyFloat, hsp, hnd]
  · have htail : stripCommas ['.', a, b] = ['.', a, b] :=
      List.filter_eq_self.mpr fun c hc => by
        rcases List.mem_cons.mp hc with rfl | hc
        · rfl
        · rcases List.mem_cons.mp hc with rfl | hc
          · rw [digit_ne_comma ha]
            rfl
          · rw [List.mem_singleton.mp hc, digit_ne_comma hb]
            rfl
    have hall : stripCommas (t₁ ++ t₂ ++ ['.', a, b]) =
        (t₁ ++ stripCommas t₂) ++ ['.', a, b] := by
      unfold stripCommas at hs1 htail ⊢
      rw [List.filter_append, List.filter_append, hs1, htail]
    rw [hall]
    have hsp : spanDigits ((t₁ ++ stripCommas t₂) ++ ['.', a, b]) =
        (t₁ ++ stripCommas t₂, ['.', a, b]) :=
      spanDigits_split hd (fun c t hcon => by
        injection hcon with h1 _
        rw [← h1]
        decide)
    have hne2 : (t₁ ++ stripCommas t₂) ≠ [] := fun hcon => hne (List.append_eq_nil.mp hcon).1
    rw [List.append_assoc] at hsp
    simp [pyFloat, hsp, hnd, hne2, ha, hb]

/-! ### The pattern-priority loops -/

theorem tryAmountPatterns_char (ps : List RE) (s : List Char)
    (H : ∀ p ∈ ps, ∀ m ∈ pyFindall p s, GoodAmt m) :
    (tryAmountPatterns ps s = none ↔ ∀ p ∈ ps, pyFindall p s = [])
    ∧ (∀ p, firstMatchingPattern ps s = some p →
        ∀ m ms, pyFindall p s = m :: ms →
          tryAmountPatterns ps s = pyFloat (stripCommas m)) := by
  induction ps with
  | nil =>
      refine ⟨by simp [tryAmountPatterns], fun p hp => ?_⟩
      exact Option.noConfusion hp
  | cons q qs ih =>
      obtain ⟨ih1, ih2⟩ := ih fun p hp m hm => H p (List.mem_cons_of_mem _ hp) m hm
      cases hq : pyFindall q s with
      | nil =>
          have htry : tryAmountPatterns (q :: qs) s = tryAmountPatterns qs s := by
            simp only [tryAmountPatterns]
            rw [hq]
          have hQ : (pyFindall q s).isEmpty = true := by
            rw [hq]
            rfl
          constructor
          · rw [htry, ih1, List.forall_mem_cons]
            simp [hq]
          · intro p hfind m ms hpm
            simp only [firstMatchingPattern] at hfind
            rw [if_pos hQ] at hfind
            rw [htry]
            exact ih2 p hfind m ms hpm
      | cons m0 ms0 =>
          have hgood : GoodAmt m0 :=
            H q (List.mem_cons_self _ _) m0 (by rw [hq]; exact List.mem_cons_self _ _)
          obtain ⟨v, hv⟩ := Option.isSome_iff_exists.mp (pyFloat_goodAmt_isSome hgood)
          have htry : tryAmountPatterns (q :: qs) s = some v := by
            simp only [tryAmountPatterns]
            rw [hq]
            show (match pyFloat (stripCommas m0) with
              | some w => some w
              | none => tryAmountPatterns qs s) = some v
            rw [hv]
          constructor
          · rw [htry]
            constructor
            · intro hcon
              exact Option.noConfusion hcon
            · intro hall
              exact absurd (hall q (List.mem_cons_self _ _)) (by rw [hq]; simp)
          · intro p hfind m ms hpm
            have hQ : (pyFindall q s).isEmpty = false := by
              rw [hq]
              rfl
            simp only [firstMatchingPattern] at hfind
            rw [if_neg (by simp [hQ])] at hfind
            obtain rfl := Option.some.inj hfind
            rw [hq] at hpm
            injection hpm with h1 _
            rw [htry, ← h1, hv]

theorem tryNumPatterns_char (ps : List RE) (s : List Char) :
    ((∀ p ∈ ps, pyFindall p s = []) → tryNumPatterns ps s = none)
    ∧ (∀ p, firstMatchingPattern ps s = some p →
        ∀ ns, (pyFindall p s).mapM intParse = some ns →
          tryNumPatterns ps s = some (maxOfList ns)) := by
  induction ps with
  | nil =>
      refine ⟨fun _ => rfl, fun p hp => ?_⟩
      exact Option.noConfusion hp
  | cons q qs ih =>
      obtain ⟨ih1, ih2⟩ := ih
      cases hq : pyFindall q s with
      | nil =>
          have htry : tryNumPatterns (q :: qs) s = tryNumPatterns qs s := by
            simp only [tryNumPatterns]
            rw [hq]
          have hQ : (pyFindall q s).isEmpty = true := by
            rw [hq]
            rfl
          constructor
          · intro hall
            rw [htry]
            exact ih1 fun p hp => hall p (List.mem_cons_of_mem _ hp)
          · intro p hfind ns hns
            simp only [firstMatchingPattern] at hfind
            rw [if_pos hQ] at hfind
            rw [htry]
            exact ih2 p hfind ns hns
      | cons m0 ms0 =>
          constructor
          · intro hall
            exact absurd (hall q (List.mem_cons_self _ _)) (by rw [hq]; simp)
          · intro p hfind ns hns
            have hQ : (pyFindall q s).isEmpty = false := by
              rw [hq]
              rfl
            simp only [firstMatchingPattern] at hfind
            rw [if_neg (by simp [hQ])] at hfind
            obtain rfl := Option.some.inj hfind
            rw [hq] at hns
            simp only [tryNumPatterns]
            rw [hq]
            show (match (m0 :: ms0).mapM intParse with
              | some ns2 => some (maxOfList ns2)
              | none => tryNumPatterns qs s) = some (maxOfList ns)
            rw [hns]

/-! ### ASCII case-insensitivity -/

theorem char_toNat_ofNat {n : Nat} (h : n.isValidChar) : (Char.ofNat n).toNat = n := by
  simp [Char.ofNat, h, Char.ofNatAux, Char.toNat, UInt32.toNat]

theorem charLower_charUpper (c : Char) : charLower (charUpper c) = charLower c := by
  unfold charUpper
  split_ifs with h
  · obtain ⟨h1, h2⟩ := h
    have hv : (c.toNat - 32).isValidChar := Or.inl (by omega)
    have ht : (Char.ofNat (c.toNat - 32)).toNat = c.toNat - 32 := char_toNat_ofNat hv
    unfold charLower
    rw [ht, if_pos (by constructor <;> omega), if_neg (by omega)]
    have h32 : c.toNat - 32 + 32 = c.toNat := by omega
    rw [h32, Char.ofNat_toNat]
  · rfl

theorem pyLower_pyUpper (l : List Char) : pyLower (pyUpper l) = pyLower l := by
  unfold pyLower pyUpper
  rw [List.map_map]
  exact List.map_congr_left fun x _ => charLower_charUpper x

theorem pyUpperStr_ne_empty {b : String} (hb : b ≠ "") : pyUpperStr b ≠ "" := by
  intro h
  apply hb
  have hd : pyUpper b.data = [] := congrArg String.data h
  unfold pyUpper at hd
  rw [List.map_eq_nil_iff] at hd
  exact String.ext_iff.mpr (by rw [hd])

/-! ### Claim C6 — milestone extraction -/

/-- C6 (amended): `extract_milestones` matches its numeric patterns
case-insensitively (uppercasing the body never changes the result); the
*first* pattern in the fixed order with any match wins, and the result
is the maximum over that pattern's matches (not over the matches of all
patterns); when no numeric pattern matches, the result is the number of
occurrences of the literal word `milestone`; and the spec's scenario
body yields 3. -/
theorem C6_amended_milestone_extraction :
    (∀ b : String, extract_milestones (pyUpperStr b) = extract_milestones b)
    ∧ (∀ (b : String) (p : RE), b ≠ "" →
        firstMatchingPattern milestone_patterns (pyLower b.data) = some p →
        ∀ ns, (pyFindall p (pyLower b.data)).mapM intParse = some ns →
          extract_milestones b = maxOfList ns)
    ∧ (∀ b : String, b ≠ "" →
        (∀ p ∈ milestone_patterns, pyFindall p (pyLower b.data) = []) →
        extract_milestones b =
          (pyFindall (.lit (("milestone").data) false) (pyLower b.data)).length)
    ∧ extract_milestones ("Milestones: 3. Budget: $25,000.") = 3 := by
  refine ⟨?_, ?_, ?_, by decide⟩
  · intro b
    by_cases hb : b = ""
    · subst hb
      rfl
    · have hub : pyUpperStr b ≠ "" := pyUpperStr_ne_empty hb
      unfold extract_milestones
      rw [if_neg hb, if_neg hub]
      have hdata : (pyUpperStr b).data = pyUpper b.data := rfl
      rw [hdata, pyLower_pyUpper]
  · intro b p hb hfind ns hns
    unfold extract_milestones
    rw [if_neg hb,
      (tryNumPatterns_char milestone_patterns (pyLower b.data)).2 p hfind ns hns]
  · intro b hb hall
    unfold extract_milestones
    rw [if_neg hb, (tryNumPatterns_char milestone_patterns (pyLower b.data)).1 hall]
    show (if 0 < (pyFindall (.lit (("milestone").data) false) (pyLower b.data)).length
        then (pyFindall (.lit (("milestone").data) false) (pyLower b.data)).length
        else 0) =
      (pyFindall (.lit (("milestone").data) false) (pyLower b.data)).length
    split_ifs with h
    · rfl
    · omega

/-- C6 counterexample: on a body where the first matching pattern
(`milestone: N`) captures 2 but a later pattern (`N phases`) captures 5,
the code returns 2 while the claim's global maximum is 5. -/
theorem C6_counterexample_first_pattern_shadows_global_max :
    extract_milestones ("milestone: 2. 5 phases") ≠
      spec_milestone_count ("milestone: 2. 5 phases") ∧
    extract_milestones ("milestone: 2. 5 phases") = 2 ∧
    spec_milestone_count ("milestone: 2. 5 phases") = 5 :=
  ⟨by decide, by decide, by decide⟩

/-- Witness for C6 (amended): on the body `2 phases` the first matching
pattern is `(\d+)\s*phase[s]?` and the result is the maximum of its
parsed matches. -/
theorem C6_amended_milestone_extraction_witness :
    extract_milestones ("2 phases") = maxOfList [2] :=
  C6_amended_milestone_extraction.2.1 ("2 phases") (numLabelPat (("phase").data))
    (by decide) rfl [2] rfl

/-! ### Claim C7 — bounty extraction -/

/-- C7: `extract_bounty_amount` returns null exactly when none of its
patterns, tried in the fixed priority order with the dollar-sign pattern
first, has a match (the matched text never fails numeric parsing, so the
parse-failure fallthrough is unreachable); when the first matching
pattern has matches, the result is `float` of its first capture with
digit-group separators stripped; the spec scenario yields 25000.0, and a
dollar match beats a later-listed currency match appearing earlier in
the text. -/
theorem C7_bounty_first_match_priority :
    (∀ b : String, extract_bounty_amount b = none ↔
        ∀ p ∈ amount_patterns, pyFindall p b.data = [])
    ∧ (∀ (b : String) (p : RE),
        firstMatchingPattern amount_patterns b.data = some p →
        ∀ m ms, pyFindall p b.data = m :: ms →
          extract_bounty_amount b = pyFloat (stripCommas m))
    ∧ extract_bounty_amount ("Milestones: 3. Budget: $25,000.") = some 25000
    ∧ extract_bounty_amount ("budget: 10 DOT and $5") = some 5 := by
  have hch := fun b : String =>
    tryAmountPatterns_char amount_patterns b.data
      (fun p hp m hm => pyFindall_capture_good hp m hm)
  refine ⟨?_, ?_, by decide, by decide⟩
  · intro b
    unfold extract_bounty_amount
    by_cases hb : b = ""
    · subst hb
      rw [if_pos rfl]
      exact iff_of_true rfl (fun p hp => by fin_cases hp <;> rfl)
    · rw [if_neg hb]
      exact (hch b).1
  · intro b p hfind m ms hpm
    have hbne : b ≠ "" := by
      intro hb
      subst hb
      have hnone : firstMatchingPattern amount_patterns ("" : String).data = none := rfl
      rw [hnone] at hfind
      exact Option.noConfusion hfind
    unfold extract_bounty_amount
    rw [if_neg hbne]
    exact (hch b).2 p hfind m ms hpm

/-- Witness for C7 on the body `5 USD`: the USD-suffix pattern is the
first to match and the result is the parsed first capture. -/
theorem C7_bounty_first_match_priority_witness :
    extract_bounty_amount ("5 USD") = pyFloat (stripCommas (['5'])) :=
  C7_bounty_first_match_priority.2.1 ("5 USD")
    (.seq (.group amtRE) (.seq wsStar (.lit (("USD").data) true))) rfl ['5'] [] rfl

end GrantAnalyzer
